import Mathlib

/-!
Verification of the QuCumber monitoring/analytics scaffolding:

* `src/qucumber/callbacks/observable_evaluator.py` — the `ObservableEvaluator`
  callback (periodic evaluation, in-memory history, accessors);
* `src/Energy.py` — `trainEnergy` (trial-record writing, relative-error
  computation, automatic trial numbering) and `analysis` (trial-record parsing
  and cross-trial aggregation).

Embedding conventions:

* Python floats are idealised as exact rationals (`ℚ`); `round(x, n)` is exact
  half-even rounding of the rational to `n` decimal places.
* Python exceptions are modelled with `Except PyError`; `IndexError`,
  `KeyError`, `ValueError`, `AttributeError` and `ZeroDivisionError` are the
  kinds the embedded code can raise.
* A text line of a trial record is represented already split on single spaces
  (Python's `line.strip("\n").split(" ")`); a token is either a numeric
  literal `Tok.num q` (standing for the decimal rendering of `q`, on which
  `str`/`float` round-trip exactly) or a non-numeric piece `Tok.str s`
  (including the empty string produced between two adjacent spaces).
* `os.listdir` results are taken as a given list of file names in listing
  order (the order the OS returns, which `trainEnergy` relies on as-is).
-/

namespace QuCumber

/-- The exception kinds raised by the embedded Python code. -/
inductive PyError where
  | indexError
  | keyError
  | valueError
  | attributeError
  | zeroDivisionError
deriving DecidableEq, Repr

/-- The effective position of Python index `i` into a sequence of length
`len`: negative indices count from the end. -/
def pyIndex (len : ℕ) (i : ℤ) : ℤ :=
  if i < 0 then i + len else i

/-- Python sequence indexing `l[i]`: negative indices count from the end;
an out-of-range index raises `IndexError`. -/
def pyGet {α : Type} (l : List α) (i : ℤ) : Except PyError α :=
  if h : 0 ≤ pyIndex l.length i ∧ pyIndex l.length i < (l.length : ℤ) then
    .ok (l.get ⟨(pyIndex l.length i).toNat, by omega⟩)
  else
    .error .indexError

/-- Python dict lookup `d[k]`: raises `KeyError` when the key is absent. -/
def pyDictGet {α : Type} (d : List (String × α)) (k : String) : Except PyError α :=
  match d.lookup k with
  | some v => .ok v
  | none => .error .keyError

/-- Python float division `a / b`: raises `ZeroDivisionError` when `b = 0`. -/
def pyDiv (a b : ℚ) : Except PyError ℚ :=
  if b = 0 then .error .zeroDivisionError else .ok (a / b)

/-- Round a rational to the nearest integer, ties to even
(the rounding used by Python's builtin `round`). -/
def pyRoundInt (q : ℚ) : ℤ :=
  if q - ⌊q⌋ < 1 / 2 then ⌊q⌋
  else if 1 / 2 < q - ⌊q⌋ then ⌊q⌋ + 1
  else if ⌊q⌋ % 2 = 0 then ⌊q⌋ else ⌊q⌋ + 1

/-- Python `round(q, d)`: round to `d` decimal places, ties to even. -/
def pyRound (q : ℚ) (d : ℕ) : ℚ :=
  (pyRoundInt (q * 10 ^ d) : ℚ) / 10 ^ d

/-- A token of a record line, as produced by `line.strip("\n").split(" ")`.
`num q` stands for the decimal rendering of the number `q`;
`str s` is any other piece of text, including the empty string. -/
inductive Tok where
  | num (q : ℚ)
  | str (s : String)
deriving DecidableEq, Repr

/-- A record line, already split on single spaces. -/
abbrev Line := List Tok

/-- Python `float(token)`: succeeds exactly on numeric literals,
raises `ValueError` on any other string (e.g. the empty string). -/
def floatTok : Tok → Except PyError ℚ
  | .num q => .ok q
  | .str _ => .error .valueError

/-! ## `ObservableEvaluator` (src/qucumber/callbacks/observable_evaluator.py)

The class stores whatever values the measurement returns; `α` is the type of
the per-observable statistics (a `StatSummary` for the sampling evaluator, a
plain number for the sibling metric evaluator, which the spec gives the same
periodic/history contract). -/

/-- Per-observable statistics returned by the external sampling engine. -/
structure StatSummary where
  mean : ℚ
  variance : ℚ
  std_error : ℚ
deriving DecidableEq, Repr

/-- The mutable state of an `ObservableEvaluator` instance: exactly the
attributes its `__init__` assigns (`period`, `observable_statistics`, `last`,
`verbose`), plus `metric_values`, a dynamic attribute read by `__len__` that
no method ever assigns — modelled as an `Option` that stays `none`.
The `observables`, `system` and `sampling_kwargs` attributes are the fixed
measurement configuration; they are abstracted into the `measure` function
passed to `onEpochEnd`. -/
structure ObservableEvaluator (α : Type) where
  period : ℕ
  observable_statistics : List (ℕ × List (String × α))
  last : List (String × α)
  verbose : Bool
  metric_values : Option (List α)
deriving DecidableEq, Repr

/-- `__init__(self, period, *observables, verbose=False, **sampling_kwargs)`:
empty history, empty `last`, and no `metric_values` attribute. -/
def initEvaluator (α : Type) (period : ℕ) (verbose : Bool) : ObservableEvaluator α :=
  { period := period
    observable_statistics := []
    last := []
    verbose := verbose
    metric_values := none }

/-- `clear_history(self)`: reset `observable_statistics` and `last`. -/
def clear_history {α : Type} (s : ObservableEvaluator α) : ObservableEvaluator α :=
  { s with observable_statistics := [], last := [] }

/-- `__len__(self)`: `return len(self.metric_values)` — reads the
`metric_values` attribute, raising `AttributeError` when it does not exist. -/
def lenEvaluator {α : Type} (s : ObservableEvaluator α) : Except PyError ℕ :=
  match s.metric_values with
  | some l => .ok l.length
  | none => .error .attributeError

/-- `get_value(self, name, index=None)`:
`index = index if index is not None else -1`;
`return self.observable_statistics[index][-1][name]`.
`[-1]` on the `(epoch, obs_vals)` pair is its last component, `obs_vals`. -/
def get_value {α : Type} (s : ObservableEvaluator α) (name : String) (index : Option ℤ) :
    Except PyError α := do
  let idx : ℤ := index.getD (-1)
  let entry ← pyGet s.observable_statistics idx
  pyDictGet entry.2 name

/-- `on_epoch_end(self, nn_state, epoch)`: when `epoch % period == 0`,
measure the system, overwrite `last` with a copy of the result, and append
`(epoch, obs_vals)` to the history.  `measure` abstracts
`self.system.measure(nn_state, **self.sampling_kwargs)` as a function of the
epoch (the network state evolves with the epoch).  The returned Boolean
records whether the sampling procedure was invoked, so that frame conditions
can be stated; the verbose printing is a pure stdout effect and is omitted. -/
def onEpochEnd {α : Type} (measure : ℕ → List (String × α))
    (s : ObservableEvaluator α) (epoch : ℕ) : ObservableEvaluator α × Bool :=
  if epoch % s.period = 0 then
    let obs_vals := measure epoch
    ({ s with
        last := obs_vals
        observable_statistics := s.observable_statistics ++ [(epoch, obs_vals)] }, true)
  else
    (s, false)

/-- The states an `ObservableEvaluator` instance can reach: freshly
constructed, after any end-of-epoch callback (with any measurement outcome),
or after `clear_history`. -/
inductive EvalReachable {α : Type} : ObservableEvaluator α → Prop
  | init (p : ℕ) (v : Bool) : EvalReachable (initEvaluator α p v)
  | step {s : ObservableEvaluator α} (m : ℕ → List (String × α)) (e : ℕ) :
      EvalReachable s → EvalReachable (onEpochEnd m s e).1
  | clear {s : ObservableEvaluator α} :
      EvalReachable s → EvalReachable (clear_history s)

/-- A training run whose iterations are numbered `1, …, E`, invoking the
end-of-epoch callback at each iteration (as `fit` does). -/
def runEvaluator {α : Type} (measure : ℕ → List (String × α))
    (p E : ℕ) (verbose : Bool) : ObservableEvaluator α :=
  (List.range' 1 E).foldl (fun s e => (onEpochEnd measure s e).1)
    (initEvaluator α p verbose)

/-! ## Trial records (src/Energy.py)

`trainEnergy` (lines 125–143) writes one trial record; `analysis`
(lines 145–177) reads records back and aggregates across trials. -/

/-- `trainEnergy` lines 127–129: `relativeErrors.append(abs(energies[i] - H)/abs(H))`
for each recorded iteration, where `H` is the reference value. -/
def relativeErrorsCalc : List ℚ → ℚ → Except PyError (List ℚ)
  | [], _ => .ok []
  | e :: rest, H => do
    let r ← pyDiv |e - H| |H|
    let rs ← relativeErrorsCalc rest H
    .ok (r :: rs)

/-- One data row as written by `trainEnergy` lines 137–142 and then split on
single spaces: six rounded fields, each followed by two spaces (hence an empty
token after each field, and one extra empty token from the trailing spaces
before the newline). -/
def dataLine (f r t m v e : ℚ) : Line :=
  [.num (pyRound f 3), .str "", .num (pyRound r 6), .str "", .num (pyRound t 3), .str "",
   .num (pyRound m 5), .str "", .num (pyRound v 5), .str "", .num (pyRound e 5), .str "",
   .str ""]

/-- The body of the writing loop `for i in range(len(fidelities))`
(`trainEnergy` lines 136–142), indexing six parallel lists at each `i`. -/
def writeDataLinesAux (fids roes rts means vars errs : List ℚ) :
    List ℕ → Except PyError (List Line)
  | [] => .ok []
  | i :: rest => do
    let f ← pyGet fids (i : ℤ)
    let r ← pyGet roes (i : ℤ)
    let t ← pyGet rts (i : ℤ)
    let m ← pyGet means (i : ℤ)
    let v ← pyGet vars (i : ℤ)
    let e ← pyGet errs (i : ℤ)
    let restLines ← writeDataLinesAux fids roes rts means vars errs rest
    .ok (dataLine f r t m v e :: restLines)

/-- The data rows of a trial record: one row per index in
`range(len(fidelities))`, in that order. -/
def trialDataRows (fids roes rts means vars errs : List ℚ) : Except PyError (List Line) :=
  writeDataLinesAux fids roes rts means vars errs (List.range fids.length)

/-- The header row `"Fidelities & ROE & RT & Mean & Variance & STD Error"`,
split on single spaces. -/
def headerTokens : Line :=
  [.str "Fidelities", .str "&", .str "ROE", .str "&", .str "RT", .str "&",
   .str "Mean", .str "&", .str "Variance", .str "&", .str "STD", .str "Error"]

/-- The three configuration lines and the header row written by
`trainEnergy` lines 132–135. -/
def configLines (ns bi st : ℚ) : List Line :=
  [[.str "samples:", .num ns], [.str "burn_in:", .num bi], [.str "steps:", .num st],
   headerTokens]

/-- The whole trial record file written by `trainEnergy` lines 131–143:
configuration header followed by the data rows. -/
def writeTrialLines (ns bi st : ℚ) (fids roes rts means vars errs : List ℚ) :
    Except PyError (List Line) := do
  let rows ← trialDataRows fids roes rts means vars errs
  .ok (configLines ns bi st ++ rows)

/-- What `analysis` accumulates for one trial (lines 155–172):
the three configuration tokens and the three extracted columns. -/
structure ParsedTrial where
  samples : Option Tok
  burn_in : Option Tok
  steps : Option Tok
  fidelities : List ℚ
  errors : List ℚ
  runtimes : List ℚ
deriving DecidableEq, Repr

/-- The empty accumulator at the start of one trial's parse. -/
def emptyParsed : ParsedTrial :=
  { samples := none, burn_in := none, steps := none
    fidelities := [], errors := [], runtimes := [] }

/-- The parsing loop `for j in range(len(lines))` of `analysis`
(lines 158–169): line 0/1/2 supply the configuration tokens (`split(" ")[1]`),
line 3 (the header row) is skipped, and every line with `j > 3` has its
tokens at positions 0, 2 and 4 parsed as floats and appended to the
fidelity, relative-error and runtime columns, in that order. -/
def parseTrialAux : ℕ → ParsedTrial → List Line → Except PyError ParsedTrial
  | _, acc, [] => .ok acc
  | j, acc, line :: rest => do
    let acc' ←
      if j = 0 then do
        let t ← pyGet line 1
        pure { acc with samples := some t }
      else if j = 1 then do
        let t ← pyGet line 1
        pure { acc with burn_in := some t }
      else if j = 2 then do
        let t ← pyGet line 1
        pure { acc with steps := some t }
      else if 3 < j then do
        let f0 ← pyGet line 0
        let f ← floatTok f0
        let e2 ← pyGet line 2
        let e ← floatTok e2
        let r4 ← pyGet line 4
        let r ← floatTok r4
        pure { acc with
          fidelities := acc.fidelities ++ [f]
          errors := acc.errors ++ [e]
          runtimes := acc.runtimes ++ [r] }
      else
        pure acc
    parseTrialAux (j + 1) acc' rest

/-- Parse one trial record (the inner loop of `analysis`, lines 154–169). -/
def parseTrialLines (lines : List Line) : Except PyError ParsedTrial :=
  parseTrialAux 0 emptyParsed lines

/-- The outer loop of `analysis` (lines 152–173): parse every trial record in
turn, first failure aborting the whole analysis. -/
def parseAllTrials : List (List Line) → Except PyError (List ParsedTrial)
  | [] => .ok []
  | f :: rest => do
    let t ← parseTrialLines f
    let ts ← parseAllTrials rest
    .ok (t :: ts)

/-- `analysis` lines 175–177: `runtime10.append(float(runtimes[i][10]))` —
the runtime at the fixed target iteration index 10 of every trial. -/
def runtimesAt10 : List ParsedTrial → Except PyError (List ℚ)
  | [] => .ok []
  | t :: rest => do
    let r ← pyGet t.runtimes 10
    let rs ← runtimesAt10 rest
    .ok (r :: rs)

/-- The record-reading part of `analysis`: parse all trials, then build the
cross-trial runtime-at-iteration-10 series. -/
def analysisPipeline (files : List (List Line)) : Except PyError (List ℚ) := do
  let ts ← parseAllTrials files
  runtimesAt10 ts

/-! ## Automatic trial numbering (src/Energy.py lines 103–109, 123, 131) -/

/-- The `trialNum` parameter of `trainEnergy`: the default string `"Next"`
requesting automatic numbering, or an explicit integer. -/
inductive TrialNum where
  | next
  | num (n : ℕ)
deriving DecidableEq, Repr

/-- `str(trialNum)` as interpolated into the artifact path
`"Data/Energy/Q{0}/Trial{1}.txt".format(numQubits, trialNum)`. -/
def trialNumStr : TrialNum → String
  | .next => "Next"
  | .num n => toString n

/-- `trainEnergy` lines 105–109: `prevFile = files[-1]` (raising `IndexError`
on an empty listing), then `trial = int(char) + 1` for every digit character
of that one file name — i.e. the final value is the last digit plus one. -/
def nextTrialCalc (files : List String) : Except PyError ℕ := do
  let prevFile ← pyGet files (-1)
  .ok (prevFile.toList.foldl
    (fun trial c => if c.isDigit then c.toNat - Char.toNat '0' + 1 else trial) 0)

/-- The trial identifier embedded in the written artifact's path:
when automatic numbering is requested the scan runs (lines 104–109) but its
result `trial` is never read again; both the plot path (line 123) and the
record path (line 131) interpolate the original `trialNum` argument. -/
def writtenTrialId (t : TrialNum) (files : List String) : Except PyError String :=
  match t with
  | .next => do
    let _ ← nextTrialCalc files
    .ok (trialNumStr .next)
  | .num n => .ok (trialNumStr (.num n))

/-! ## Series accessors over evaluator histories

`trainEnergy` reads `callbacks[0].Heisenberg1DEnergy.mean` (etc.),
`callbacks[1].Fidelity` and `callbacks[2].epochTimes`.  The attribute-based
accessors, the `MetricEvaluator` and the `Timer` are not under `src/`. -/

/-- Modelled from the spec: the per-observable mean series extracted from an
evaluator history (the attribute-based series accessor
`callbacks[0].<name>.mean` is not under src/; §3 of the spec defines a
`HistoryEntry` as `{iteration, values : name → StatSummary}` and §4.4 feeds
the per-iteration means to the recorder). -/
def meanSeries (s : ObservableEvaluator StatSummary) (nm : String) : List ℚ :=
  s.observable_statistics.map (fun en => (((en.2).lookup nm).getD ⟨0, 0, 0⟩).mean)

/-- Modelled from the spec: the per-observable variance series
(see `meanSeries`). -/
def varianceSeries (s : ObservableEvaluator StatSummary) (nm : String) : List ℚ :=
  s.observable_statistics.map (fun en => (((en.2).lookup nm).getD ⟨0, 0, 0⟩).variance)

/-- Modelled from the spec: the per-observable standard-error series
(see `meanSeries`). -/
def stdErrorSeries (s : ObservableEvaluator StatSummary) (nm : String) : List ℚ :=
  s.observable_statistics.map (fun en => (((en.2).lookup nm).getD ⟨0, 0, 0⟩).std_error)

/-- Modelled from the spec: the value series of an evaluator holding one
plain number per entry (the `MetricEvaluator` fidelity series
`callbacks[1].Fidelity` and the `Timer` series `callbacks[2].epochTimes` are
not under src/; §4.2 and §4.3 give both the same periodic/history contract
as the `ObservableEvaluator` of §4.1). -/
def valueSeries (s : ObservableEvaluator ℚ) (nm : String) : List ℚ :=
  s.observable_statistics.map (fun en => ((en.2).lookup nm).getD 0)

/-- The statistics a measurement at epoch `e` reports for observable `nm`. -/
def statAt (measure : ℕ → List (String × StatSummary)) (nm : String) (e : ℕ) : StatSummary :=
  ((measure e).lookup nm).getD ⟨0, 0, 0⟩

/-- A malformed data line with five two-space-delimited fields instead of
six, in the record's on-disk format (two spaces after every field): its
single-space split has 11 tokens, the field values at even positions. -/
def fiveFieldLine (a b c d e : ℚ) : Line :=
  [.num a, .str "", .num b, .str "", .num c, .str "", .num d, .str "", .num e, .str "",
   .str ""]

instance {ε α : Type} [DecidableEq ε] [DecidableEq α] : DecidableEq (Except ε α) :=
  fun a b =>
    match a, b with
    | .ok x, .ok y =>
      if h : x = y then isTrue (by rw [h]) else isFalse (by intro hc; cases hc; exact h rfl)
    | .error x, .error y =>
      if h : x = y then isTrue (by rw [h]) else isFalse (by intro hc; cases hc; exact h rfl)
    | .ok _, .error _ => isFalse (by intro hc; cases hc)
    | .error _, .ok _ => isFalse (by intro hc; cases hc)

/-! ## Helper lemmas -/

@[simp] theorem exceptBind_ok {ε α β : Type} (a : α) (f : α → Except ε β) :
    (Except.ok a >>= f : Except ε β) = f a := rfl

@[simp] theorem exceptBind_error {ε α β : Type} (e : ε) (f : α → Except ε β) :
    (Except.error e >>= f : Except ε β) = .error e := rfl

theorem pyGet_natCast {α : Type} (l : List α) (i : ℕ) (h : i < l.length) :
    pyGet l (i : ℤ) = .ok (l.get ⟨i, h⟩) := by
  have hidx : pyIndex l.length (i : ℤ) = (i : ℤ) := by
    simp [pyIndex]
  rw [pyGet, dif_pos (by rw [hidx]; omega)]
  have hval : (pyIndex l.length (i : ℤ)).toNat = i := by rw [hidx]; omega
  simp only [hval]

theorem pyGet_concat_neg_one {α : Type} (l : List α) (x : α) :
    pyGet (l ++ [x]) (-1) = .ok x := by
  have hidx : pyIndex (l ++ [x]).length (-1) = (l.length : ℤ) := by
    simp [pyIndex]
  rw [pyGet, dif_pos (by rw [hidx]; simp)]
  have hval : (pyIndex (l.length + 1) (-1)).toNat = l.length := by
    simp [pyIndex]
  simp [hval]

theorem pyGet_nil_neg_one {α : Type} :
    pyGet ([] : List α) (-1) = .error .indexError := by
  rw [pyGet, dif_neg]
  simp [pyIndex]

theorem pyGet_ge_length {α : Type} (l : List α) (i : ℕ) (h : l.length ≤ i) :
    pyGet l (i : ℤ) = .error .indexError := by
  rw [pyGet, dif_neg]
  simp only [pyIndex]
  omega

theorem onEpochEnd_period {α : Type} (m : ℕ → List (String × α))
    (s : ObservableEvaluator α) (e : ℕ) : ((onEpochEnd m s e).1).period = s.period := by
  rw [onEpochEnd]
  split <;> rfl

theorem foldl_onEpochEnd_period {α : Type} (m : ℕ → List (String × α)) (l : List ℕ)
    (s : ObservableEvaluator α) :
    (l.foldl (fun s e => (onEpochEnd m s e).1) s).period = s.period := by
  induction l generalizing s with
  | nil => rfl
  | cons e t ih => rw [List.foldl_cons, ih, onEpochEnd_period]

theorem runEvaluator_period {α : Type} (m : ℕ → List (String × α)) (p E : ℕ) (v : Bool) :
    (runEvaluator m p E v).period = p := by
  rw [runEvaluator, foldl_onEpochEnd_period]
  rfl

theorem runEvaluator_stats {α : Type} (m : ℕ → List (String × α)) (p : ℕ) (v : Bool)
    (hp : 1 ≤ p) (E : ℕ) :
    (runEvaluator m p E v).observable_statistics
      = (List.range (E / p)).map (fun i => ((i + 1) * p, m ((i + 1) * p))) := by
  induction E with
  | zero =>
    rw [runEvaluator]
    simp [initEvaluator]
  | succ E ih =>
    have hstep : runEvaluator m p (E + 1) v
        = (onEpochEnd m (runEvaluator m p E v) (1 + E)).1 := by
      rw [runEvaluator, runEvaluator, List.range'_1_concat, List.foldl_append]
      rfl
    rw [hstep, onEpochEnd, runEvaluator_period]
    by_cases hdvd : p ∣ E + 1
    · have hmod : (1 + E) % p = 0 := by
        have : p ∣ 1 + E := by rwa [Nat.add_comm]
        omega
      rw [if_pos hmod]
      simp only [ih]
      have hq : (E + 1) / p = E / p + 1 := Nat.succ_div_of_dvd hdvd
      have hmul : (E / p + 1) * p = E + 1 := by
        have := Nat.div_mul_cancel hdvd
        rw [hq] at this
        exact this
      rw [hq, List.range_succ, List.map_append]
      simp [hmul, Nat.add_comm]
    · have hmod : ¬ (1 + E) % p = 0 := by
        intro hc
        exact hdvd (by rw [Nat.add_comm]; exact Nat.dvd_of_mod_eq_zero hc)
      rw [if_neg hmod]
      rw [Nat.succ_div_of_not_dvd hdvd] at *
      exact ih

/-- Invariant of reachable evaluator states: `last` always holds the values
of the most recent history entry (or is empty when the history is empty). -/
theorem reachable_last_inv {α : Type} {s : ObservableEvaluator α} (h : EvalReachable s) :
    (s.observable_statistics = [] ∧ s.last = []) ∨
    ∃ rest e v, s.observable_statistics = rest ++ [(e, v)] ∧ s.last = v := by
  induction h with
  | init p v => exact Or.inl ⟨rfl, rfl⟩
  | step m e hr ih =>
    rename_i s
    by_cases hc : e % s.period = 0
    · exact Or.inr ⟨s.observable_statistics, e, m e,
        by simp [onEpochEnd, hc], by simp [onEpochEnd, hc]⟩
    · simpa [onEpochEnd, hc] using ih
  | clear hr ih => exact Or.inl ⟨rfl, rfl⟩

/-- Invariant of reachable evaluator states: the `metric_values` attribute is
never created. -/
theorem reachable_metric_values {α : Type} {s : ObservableEvaluator α} (h : EvalReachable s) :
    s.metric_values = none := by
  induction h with
  | init p v => rfl
  | step m e hr ih =>
    rename_i s
    by_cases hc : e % s.period = 0 <;> simpa [onEpochEnd, hc] using ih
  | clear hr ih =>
    simpa [clear_history] using ih

theorem pyRoundInt_close (q : ℚ) : |(pyRoundInt q : ℚ) - q| ≤ 1 / 2 := by
  have h0 : (⌊q⌋ : ℚ) ≤ q := Int.floor_le q
  have h1 : q < ⌊q⌋ + 1 := Int.lt_floor_add_one q
  rw [pyRoundInt]
  split_ifs with hlt hgt hev
  · rw [abs_le]
    constructor <;> linarith
  · push_cast
    rw [abs_le]
    constructor <;> linarith
  · push_cast at *
    rw [abs_le]
    constructor <;> linarith
  · push_cast at *
    rw [abs_le]
    constructor <;> linarith

theorem pyRound_close (q : ℚ) (d : ℕ) : |pyRound q d - q| ≤ 1 / (2 * 10 ^ d) := by
  have hpow : (0 : ℚ) < 10 ^ d := by positivity
  have h := pyRoundInt_close (q * 10 ^ d)
  have hrw : pyRound q d - q
      = ((pyRoundInt (q * 10 ^ d) : ℚ) - q * 10 ^ d) / 10 ^ d := by
    rw [pyRound, sub_div, mul_div_cancel_right₀ _ (ne_of_gt hpow)]
  rw [hrw, abs_div, abs_of_pos hpow, div_le_div_iff₀ hpow (by positivity)]
  nlinarith [h, hpow]

theorem pyGet_lt_getD {α : Type} (l : List α) (d : α) (i : ℕ) (h : i < l.length) :
    pyGet l (i : ℤ) = .ok (l.getD i d) := by
  rw [pyGet_natCast _ _ h]
  simp [List.getElem?_eq_getElem h]

theorem writeDataLinesAux_ok (fids roes rts means vars errs : List ℚ) (idxs : List ℕ)
    (h : ∀ i ∈ idxs, i < fids.length ∧ i < roes.length ∧ i < rts.length ∧
      i < means.length ∧ i < vars.length ∧ i < errs.length) :
    writeDataLinesAux fids roes rts means vars errs idxs
      = .ok (idxs.map (fun i => dataLine (fids.getD i 0) (roes.getD i 0) (rts.getD i 0)
          (means.getD i 0) (vars.getD i 0) (errs.getD i 0))) := by
  induction idxs with
  | nil => rfl
  | cons i rest ih =>
    obtain ⟨h1, h2, h3, h4, h5, h6⟩ := h i (by simp)
    rw [writeDataLinesAux]
    rw [pyGet_lt_getD fids 0 i h1, pyGet_lt_getD roes 0 i h2, pyGet_lt_getD rts 0 i h3,
      pyGet_lt_getD means 0 i h4, pyGet_lt_getD vars 0 i h5, pyGet_lt_getD errs 0 i h6]
    simp only [exceptBind_ok]
    rw [ih (fun j hj => h j (by simp [hj]))]
    simp only [exceptBind_ok, List.map_cons]

/-- The data rows of a record with six parallel columns of equal length `n`. -/
theorem trialDataRows_ok (fids roes rts means vars errs : List ℚ)
    (h2 : roes.length = fids.length) (h3 : rts.length = fids.length)
    (h4 : means.length = fids.length) (h5 : vars.length = fids.length)
    (h6 : errs.length = fids.length) :
    trialDataRows fids roes rts means vars errs
      = .ok ((List.range fids.length).map
          (fun i => dataLine (fids.getD i 0) (roes.getD i 0) (rts.getD i 0)
            (means.getD i 0) (vars.getD i 0) (errs.getD i 0))) := by
  rw [trialDataRows, writeDataLinesAux_ok]
  intro i hi
  rw [List.mem_range] at hi
  omega

/-- Parsing any block of lines whose tokens at positions 0, 2 and 4 are
numeric literals, at a loop index past the configuration header, appends the
three extracted columns to the accumulator in order. -/
theorem parseTrialAux_data {γ : Type} (mk : γ → Line) (g0 g2 g4 : γ → ℚ)
    (hmk : ∀ r : γ, pyGet (mk r) 0 = .ok (Tok.num (g0 r)) ∧
      pyGet (mk r) 2 = .ok (Tok.num (g2 r)) ∧ pyGet (mk r) 4 = .ok (Tok.num (g4 r)))
    (rows : List γ) :
    ∀ (j : ℕ), 4 ≤ j → ∀ acc, parseTrialAux j acc (rows.map mk)
      = .ok { acc with
          fidelities := acc.fidelities ++ rows.map g0
          errors := acc.errors ++ rows.map g2
          runtimes := acc.runtimes ++ rows.map g4 } := by
  induction rows with
  | nil => intro j hj acc; simp [parseTrialAux]
  | cons r rest ih =>
    intro j hj acc
    obtain ⟨hm0, hm2, hm4⟩ := hmk r
    have hj0 : ¬ j = 0 := by omega
    have hj1 : ¬ j = 1 := by omega
    have hj2 : ¬ j = 2 := by omega
    have hj3 : 3 < j := by omega
    rw [List.map_cons, parseTrialAux]
    simp only [hj0, hj1, hj2, hj3, if_neg, if_pos, if_true, if_false, reduceIte]
    rw [hm0, hm2, hm4]
    simp only [exceptBind_ok, floatTok, pure_bind]
    rw [ih (j + 1) (by omega)]
    simp [List.append_assoc]

theorem map_range_getD {α β : Type} (l : List α) (d : α) (f : α → β) :
    (List.range l.length).map (fun i => f (l.getD i d)) = l.map f := by
  induction l with
  | nil => rfl
  | cons a t ih =>
    simp only [List.length_cons, List.range_succ_eq_map, List.map_cons, List.map_map,
      Function.comp_def, List.getD_cons_succ, List.getD_cons_zero]
    rw [ih]

/-- Parsing a whole record: the three configuration tokens are recovered and
the data block (any block whose lines carry numeric tokens at positions 0, 2
and 4) yields the three columns. -/
theorem parseTrialLines_record {γ : Type} (mk : γ → Line) (g0 g2 g4 : γ → ℚ)
    (hmk : ∀ r : γ, pyGet (mk r) 0 = .ok (Tok.num (g0 r)) ∧
      pyGet (mk r) 2 = .ok (Tok.num (g2 r)) ∧ pyGet (mk r) 4 = .ok (Tok.num (g4 r)))
    (rows : List γ) (ns bi st : ℚ) :
    parseTrialLines (configLines ns bi st ++ rows.map mk)
      = .ok { samples := some (.num ns), burn_in := some (.num bi), steps := some (.num st)
              fidelities := rows.map g0, errors := rows.map g2, runtimes := rows.map g4 } := by
  have hpre : parseTrialLines (configLines ns bi st ++ rows.map mk)
      = parseTrialAux 4
          { samples := some (.num ns), burn_in := some (.num bi), steps := some (.num st)
            fidelities := [], errors := [], runtimes := [] } (rows.map mk) := rfl
  rw [hpre, parseTrialAux_data mk g0 g2 g4 hmk rows 4 (by omega)]
  simp

theorem getD_map_range {β : Type} (f : ℕ → β) (d : β) (n i : ℕ) (hi : i < n) :
    ((List.range n).map f).getD i d = f i := by
  have hlen : i < ((List.range n).map f).length := by
    simp [hi]
  rw [List.getD_eq_getElem _ _ hlen]
  simp

theorem relativeErrorsCalc_ok (means : List ℚ) (H : ℚ) (hH : H ≠ 0) :
    relativeErrorsCalc means H = .ok (means.map (fun m => |m - H| / |H|)) := by
  induction means with
  | nil => rfl
  | cons a t ih =>
    rw [relativeErrorsCalc, pyDiv, if_neg (abs_ne_zero.mpr hH)]
    simp only [exceptBind_ok]
    rw [ih]
    simp

theorem relativeErrorsCalc_zero (means : List ℚ) (hne : means ≠ []) :
    relativeErrorsCalc means 0 = .error .zeroDivisionError := by
  cases means with
  | nil => exact absurd rfl hne
  | cons a t =>
    rw [relativeErrorsCalc, pyDiv, if_pos (abs_eq_zero.mpr rfl)]
    rfl

/-! ## Claim theorems -/

/-- C1: For every period p ≥ 1 and every training run whose iterations are
numbered 1..maxIteration, the PeriodicEvaluator's history after the run
contains exactly floor(maxIteration / p) entries, recorded exactly at the
iterations p, 2p, 3p, …, in that order. -/
theorem c1_periodic_history {α : Type} (measure : ℕ → List (String × α))
    (p maxIteration : ℕ) (verbose : Bool) (hp : 1 ≤ p) :
    ((runEvaluator measure p maxIteration verbose).observable_statistics).map Prod.fst
        = (List.range (maxIteration / p)).map (fun i => (i + 1) * p) ∧
    (runEvaluator measure p maxIteration verbose).observable_statistics.length
        = maxIteration / p := by
  rw [runEvaluator_stats measure p verbose hp]
  constructor
  · rw [List.map_map]
    rfl
  · simp

/-- C1 witness: period 2 over iterations 1..5 records exactly the
⌊5/2⌋ = 2 entries at iterations 2 and 4. -/
theorem c1_witness :
    1 ≤ 2 ∧
    (((runEvaluator (fun e => [("E", (e : ℚ))]) 2 5 false).observable_statistics).map Prod.fst
        = (List.range (5 / 2)).map (fun i => (i + 1) * 2) ∧
     (runEvaluator (fun e => [("E", (e : ℚ))]) 2 5 false).observable_statistics.length
        = 5 / 2) :=
  ⟨by omega, c1_periodic_history (fun e => [("E", (e : ℚ))]) 2 5 false (by omega)⟩

/-- C5 counterexample: on an empty history, `get(name, -1)` raises
`IndexError` (out-of-range index into `observable_statistics`) while
`latest()[name]` — a lookup in the empty `last` mapping — raises `KeyError`:
two different error kinds, contrary to the claim. -/
theorem c5_counterexample :
    get_value (initEvaluator ℚ 1 false) "X" (some (-1)) = .error .indexError ∧
    pyDictGet (initEvaluator ℚ 1 false).last "X" = .error .keyError ∧
    PyError.indexError ≠ PyError.keyError :=
  ⟨rfl, rfl, by decide⟩

/-- C5 amended: in every reachable state, `get(name, -1)` and
`latest()[name]` (the lookup in the `last` mapping) agree whenever the
history is non-empty; on an empty history both fail, but with different
error kinds: `get` with `IndexError`, `latest()[name]` with `KeyError`. -/
theorem c5_get_vs_latest {α : Type} (s : ObservableEvaluator α) (name : String)
    (h : EvalReachable s) :
    (s.observable_statistics ≠ [] → get_value s name (some (-1)) = pyDictGet s.last name) ∧
    (s.observable_statistics = [] →
      get_value s name (some (-1)) = .error .indexError ∧
      pyDictGet s.last name = .error .keyError) := by
  obtain hinv | ⟨rest, e, v, hstats, hlast⟩ := reachable_last_inv h
  · refine ⟨fun hne => absurd hinv.1 hne, fun _ => ⟨?_, ?_⟩⟩
    · rw [get_value, hinv.1]
      rfl
    · rw [hinv.2]
      rfl
  · constructor
    · intro _
      rw [get_value, hstats, hlast]
      show (pyGet (rest ++ [(e, v)]) (-1)) >>= (fun entry => pyDictGet entry.2 name)
          = pyDictGet v name
      rw [pyGet_concat_neg_one]
      rfl
    · intro hemp
      rw [hstats] at hemp
      simp at hemp

/-- C5 witness: a state with one recorded entry satisfies the non-empty
branch; applied at a concrete one-step run. -/
theorem c5_witness :
    EvalReachable ((onEpochEnd (fun _ => [("E", (1 : ℚ))]) (initEvaluator ℚ 1 false) 1).1) ∧
    ((((onEpochEnd (fun _ => [("E", (1 : ℚ))]) (initEvaluator ℚ 1 false) 1).1).observable_statistics
        ≠ [] →
      get_value ((onEpochEnd (fun _ => [("E", (1 : ℚ))]) (initEvaluator ℚ 1 false) 1).1)
          "E" (some (-1))
        = pyDictGet ((onEpochEnd (fun _ => [("E", (1 : ℚ))]) (initEvaluator ℚ 1 false) 1).1).last
            "E") ∧
     (((onEpochEnd (fun _ => [("E", (1 : ℚ))]) (initEvaluator ℚ 1 false) 1).1).observable_statistics
        = [] →
      get_value ((onEpochEnd (fun _ => [("E", (1 : ℚ))]) (initEvaluator ℚ 1 false) 1).1)
          "E" (some (-1)) = .error .indexError ∧
      pyDictGet ((onEpochEnd (fun _ => [("E", (1 : ℚ))]) (initEvaluator ℚ 1 false) 1).1).last "E"
        = .error .keyError)) :=
  ⟨EvalReachable.step _ _ (EvalReachable.init 1 false),
   c5_get_vs_latest _ "E" (EvalReachable.step _ _ (EvalReachable.init 1 false))⟩

/-- C9: taking the length of an ObservableEvaluator fails in every reachable
state, including after recording entries: `__len__` reads an attribute
`metric_values` that no operation of the class ever creates, so the read
raises `AttributeError`. -/
theorem c9_len_always_fails {α : Type} (s : ObservableEvaluator α)
    (h : EvalReachable s) : lenEvaluator s = .error .attributeError := by
  unfold lenEvaluator
  rw [reachable_metric_values h]

/-- C9 witness: `len` fails on a concrete state that has recorded an entry. -/
theorem c9_witness :
    EvalReachable ((onEpochEnd (fun _ => [("E", (1 : ℚ))]) (initEvaluator ℚ 1 false) 1).1) ∧
    lenEvaluator ((onEpochEnd (fun _ => [("E", (1 : ℚ))]) (initEvaluator ℚ 1 false) 1).1)
      = .error .attributeError :=
  ⟨EvalReachable.step _ _ (EvalReachable.init 1 false),
   c9_len_always_fails _ (EvalReachable.step _ _ (EvalReachable.init 1 false))⟩

/-- C10: at an iteration not divisible by the (positive) period, the
end-of-iteration callback returns the state unchanged — no history entry is
appended and `last` is untouched — and the sampling procedure is not invoked
(the Boolean invocation flag is false, and the result does not depend on the
measurement function). -/
theorem c10_frame {α : Type} (measure : ℕ → List (String × α))
    (s : ObservableEvaluator α) (epoch : ℕ) (hp : 0 < s.period)
    (h : epoch % s.period ≠ 0) :
    onEpochEnd measure s epoch = (s, false) := by
  rw [onEpochEnd, if_neg h]

/-- C10 witness: iteration 3 with period 2 leaves the fresh evaluator
unchanged and does not sample. -/
theorem c10_witness :
    0 < (initEvaluator ℚ 2 false).period ∧
    3 % (initEvaluator ℚ 2 false).period ≠ 0 ∧
    onEpochEnd (fun e => [("E", (e : ℚ))]) (initEvaluator ℚ 2 false) 3
      = (initEvaluator ℚ 2 false, false) :=
  ⟨by decide, by decide,
   c10_frame (fun e => [("E", (e : ℚ))]) (initEvaluator ℚ 2 false) 3 (by decide) (by decide)⟩

/-- Tokens 0, 2 and 4 of a written data row are the rounded fidelity,
relative-error and runtime fields. -/
theorem dataLine_toks (f r t m v e : ℚ) :
    pyGet (dataLine f r t m v e) 0 = .ok (.num (pyRound f 3)) ∧
    pyGet (dataLine f r t m v e) 2 = .ok (.num (pyRound r 6)) ∧
    pyGet (dataLine f r t m v e) 4 = .ok (.num (pyRound t 3)) := ⟨rfl, rfl, rfl⟩

/-- Tokens 0, 2 and 4 of a five-field line are its first three fields. -/
theorem fiveFieldLine_toks (a b c d e : ℚ) :
    pyGet (fiveFieldLine a b c d e) 0 = .ok (.num a) ∧
    pyGet (fiveFieldLine a b c d e) 2 = .ok (.num b) ∧
    pyGet (fiveFieldLine a b c d e) 4 = .ok (.num c) := ⟨rfl, rfl, rfl⟩

/-- `round` is the identity on integral values. -/
theorem pyRound_intCast (n : ℤ) (d : ℕ) : pyRound (n : ℚ) d = n := by
  have hpow : (0 : ℚ) < 10 ^ d := by positivity
  have h1 : ((n : ℚ) * 10 ^ d) = ((n * 10 ^ d : ℤ) : ℚ) := by push_cast; ring
  have hfl : pyRoundInt ((n : ℚ) * 10 ^ d) = n * 10 ^ d := by
    rw [pyRoundInt, h1, Int.floor_intCast, if_pos (by rw [sub_self]; norm_num)]
  rw [pyRound, hfl]
  push_cast
  field_simp

/-- C2: for a nonzero reference H, the relativeError written in data row i of
the trial record is the 6-decimal rounding of |mean_i − H| / |H| — equal to
the true relative error within the record's rounding precision (1/2·10⁻⁶) —
and with the reference exactly zero the relative-error computation raises
ZeroDivisionError. -/
theorem c2_relative_error (fids rts vars errs means : List ℚ) (H : ℚ) (i : ℕ)
    (rows : List Line) (hH : H ≠ 0) (hi : i < fids.length)
    (hm : means.length = fids.length) (ht : rts.length = fids.length)
    (hv : vars.length = fids.length) (he : errs.length = fids.length)
    (hrows : trialDataRows fids (means.map (fun m => |m - H| / |H|)) rts means vars errs
      = .ok rows) :
    relativeErrorsCalc means H = .ok (means.map (fun m => |m - H| / |H|)) ∧
    pyGet (rows.getD i []) 2 = .ok (.num (pyRound (|means.getD i 0 - H| / |H|) 6)) ∧
    abs (pyRound (|means.getD i 0 - H| / |H|) 6 - |means.getD i 0 - H| / |H|) ≤ 1 / 2000000 ∧
    relativeErrorsCalc means 0 = .error .zeroDivisionError := by
  have hroe : (means.map (fun m => |m - H| / |H|)).length = fids.length := by
    simp [hm]
  have hOk := trialDataRows_ok fids (means.map (fun m => |m - H| / |H|)) rts means vars errs
    hroe ht hm hv he
  rw [hOk] at hrows
  have hr := Except.ok.inj hrows
  have hrow : rows.getD i []
      = dataLine (fids.getD i 0) ((means.map (fun m => |m - H| / |H|)).getD i 0)
          (rts.getD i 0) (means.getD i 0) (vars.getD i 0) (errs.getD i 0) := by
    rw [← hr, getD_map_range _ _ _ _ hi]
  have hgm : (means.map (fun m => |m - H| / |H|)).getD i 0 = |means.getD i 0 - H| / |H| := by
    have h1 : i < means.length := by omega
    rw [List.getD_eq_getElem _ _ (by simpa using h1), List.getElem_map,
      List.getD_eq_getElem _ _ h1]
  refine ⟨relativeErrorsCalc_ok means H hH, ?_, ?_, ?_⟩
  · rw [hrow, (dataLine_toks _ _ _ _ _ _).2.1, hgm]
  · have h26 : (1 : ℚ) / (2 * 10 ^ 6) = 1 / 2000000 := by norm_num
    rw [← h26]
    exact pyRound_close _ 6
  · exact relativeErrorsCalc_zero means (List.ne_nil_of_length_pos (by omega))

/-- C2 witness: one recorded mean 1 against reference 2 gives relative error
1/2, written rounded to 6 decimals, and reference 0 fails. -/
theorem c2_witness :
    (2 : ℚ) ≠ 0 ∧ 0 < [(1 : ℚ)].length ∧
    (relativeErrorsCalc [(1 : ℚ)] 2 = .ok ([(1 : ℚ)].map (fun m => |m - 2| / |2|)) ∧
     pyGet (([dataLine 1 (|(1 : ℚ) - 2| / |(2 : ℚ)|) 1 1 1 1].getD 0 [])) 2
       = .ok (.num (pyRound (|[(1 : ℚ)].getD 0 0 - 2| / |(2 : ℚ)|) 6)) ∧
     abs (pyRound (|[(1 : ℚ)].getD 0 0 - 2| / |(2 : ℚ)|) 6
        - |[(1 : ℚ)].getD 0 0 - 2| / |(2 : ℚ)|) ≤ 1 / 2000000 ∧
     relativeErrorsCalc [(1 : ℚ)] 0 = .error .zeroDivisionError) :=
  ⟨by norm_num, by decide,
   c2_relative_error [1] [1] [1] [1] [1] 2 0 [dataLine 1 (|(1 : ℚ) - 2| / |(2 : ℚ)|) 1 1 1 1]
     (by norm_num) (by decide) rfl rfl rfl rfl rfl⟩

/-- C3 counterexample: two trial records that differ only in their mean,
variance and stdError columns produce identical TrialAnalyzer read-backs —
so reading a record back via TrialAnalyzer cannot yield those three columns;
only fidelity, relativeError and runtime are recovered. -/
theorem c3_counterexample :
    (writeTrialLines 1000 100 100 [1] [1] [1] [3] [5] [7]).bind parseTrialLines
      = (writeTrialLines 1000 100 100 [1] [1] [1] [4] [6] [8]).bind parseTrialLines ∧
    writeTrialLines 1000 100 100 [1] [1] [1] [3] [5] [7]
      ≠ writeTrialLines 1000 100 100 [1] [1] [1] [4] [6] [8] := by
  have hp1 : (writeTrialLines 1000 100 100 [1] [1] [1] [3] [5] [7]).bind parseTrialLines
      = .ok { samples := some (.num 1000), burn_in := some (.num 100), steps := some (.num 100)
              fidelities := [pyRound 1 3], errors := [pyRound 1 6]
              runtimes := [pyRound 1 3] } := rfl
  have hp2 : (writeTrialLines 1000 100 100 [1] [1] [1] [4] [6] [8]).bind parseTrialLines
      = .ok { samples := some (.num 1000), burn_in := some (.num 100), steps := some (.num 100)
              fidelities := [pyRound 1 3], errors := [pyRound 1 6]
              runtimes := [pyRound 1 3] } := rfl
  refine ⟨hp1.trans hp2.symm, fun hc => ?_⟩
  have hw1 : writeTrialLines 1000 100 100 [1] [1] [1] [3] [5] [7]
      = .ok (configLines 1000 100 100 ++ [dataLine 1 1 1 3 5 7]) := rfl
  have hw2 : writeTrialLines 1000 100 100 [1] [1] [1] [4] [6] [8]
      = .ok (configLines 1000 100 100 ++ [dataLine 1 1 1 4 6 8]) := rfl
  rw [hw1, hw2] at hc
  have h3 : pyRound (3 : ℚ) 5 = 3 := by
    have := pyRound_intCast 3 5
    push_cast at this
    exact this
  have h4 : pyRound (4 : ℚ) 5 = 4 := by
    have := pyRound_intCast 4 5
    push_cast at this
    exact this
  have hl := Except.ok.inj hc
  simp only [configLines, dataLine, headerTokens, List.cons_append, List.nil_append,
    List.cons.injEq, Tok.num.injEq, h3, h4] at hl
  norm_num at hl

/-- C3 amended: writing a TrialRecord and reading it back via TrialAnalyzer
yields row-for-row the written (rounded) fidelity, relativeError and runtime
columns — the three columns TrialAnalyzer extracts; the mean, variance and
stdError columns are written but never read back. -/
theorem c3_round_trip (ns bi st : ℚ) (fids roes rts means vars errs : List ℚ)
    (h2 : roes.length = fids.length) (h3 : rts.length = fids.length)
    (h4 : means.length = fids.length) (h5 : vars.length = fids.length)
    (h6 : errs.length = fids.length) :
    ∃ lines,
      writeTrialLines ns bi st fids roes rts means vars errs = .ok lines ∧
      parseTrialLines lines
        = .ok { samples := some (.num ns), burn_in := some (.num bi), steps := some (.num st)
                fidelities := fids.map (fun q => pyRound q 3)
                errors := roes.map (fun q => pyRound q 6)
                runtimes := rts.map (fun q => pyRound q 3) } := by
  refine ⟨configLines ns bi st ++ (List.range fids.length).map
      (fun i => dataLine (fids.getD i 0) (roes.getD i 0) (rts.getD i 0)
        (means.getD i 0) (vars.getD i 0) (errs.getD i 0)), ?_, ?_⟩
  · rw [writeTrialLines, trialDataRows_ok fids roes rts means vars errs h2 h3 h4 h5 h6]
    rfl
  · rw [parseTrialLines_record
      (fun i => dataLine (fids.getD i 0) (roes.getD i 0) (rts.getD i 0)
        (means.getD i 0) (vars.getD i 0) (errs.getD i 0))
      (fun i => pyRound (fids.getD i 0) 3)
      (fun i => pyRound (roes.getD i 0) 6)
      (fun i => pyRound (rts.getD i 0) 3)
      (fun i => dataLine_toks (fids.getD i 0) (roes.getD i 0) (rts.getD i 0)
        (means.getD i 0) (vars.getD i 0) (errs.getD i 0))
      (List.range fids.length) ns bi st]
    have e1 : (List.range fids.length).map (fun i => pyRound (fids.getD i 0) 3)
        = fids.map (fun q => pyRound q 3) := map_range_getD fids 0 (fun q => pyRound q 3)
    have e2 : (List.range fids.length).map (fun i => pyRound (roes.getD i 0) 6)
        = roes.map (fun q => pyRound q 6) := by
      rw [← h2]
      exact map_range_getD roes 0 (fun q => pyRound q 6)
    have e3 : (List.range fids.length).map (fun i => pyRound (rts.getD i 0) 3)
        = rts.map (fun q => pyRound q 3) := by
      rw [← h3]
      exact map_range_getD rts 0 (fun q => pyRound q 3)
    rw [e1, e2, e3]

/-- C3 witness: the round trip at a concrete one-row record. -/
theorem c3_witness :
    [(1 : ℚ)].length = [(2 : ℚ)].length ∧
    (∃ lines,
      writeTrialLines 10 20 30 [(2 : ℚ)] [1] [1] [1] [1] [1] = .ok lines ∧
      parseTrialLines lines
        = .ok { samples := some (.num 10), burn_in := some (.num 20), steps := some (.num 30)
                fidelities := [(2 : ℚ)].map (fun q => pyRound q 3)
                errors := [(1 : ℚ)].map (fun q => pyRound q 6)
                runtimes := [(1 : ℚ)].map (fun q => pyRound q 3) }) :=
  ⟨rfl, c3_round_trip 10 20 30 [2] [1] [1] [1] [1] [1] rfl rfl rfl rfl rfl⟩

/-- C6 counterexample: a record containing a data line with five fields
instead of six is parsed without any failure — TrialAnalyzer silently
accepts the malformed row, reading its first three fields, contrary to the
claimed MalformedRecordError. -/
theorem c6_counterexample :
    parseTrialLines (configLines 1 2 3 ++ [fiveFieldLine 9 8 7 6 5])
      = .ok { samples := some (.num 1), burn_in := some (.num 2), steps := some (.num 3)
              fidelities := [9], errors := [8], runtimes := [7] } := rfl

/-- C6 amended: TrialAnalyzer does not validate the field count of data
lines: every data line with five two-space-delimited fields is silently
accepted, its first, second and third fields read as fidelity, relativeError
and runtime; a failure occurs only when the single-space split lacks a
numeric token at position 0, 2 or 4 — e.g. a two-field data line raises
ValueError (the code has no MalformedRecordError at all). -/
theorem c6_no_field_count_check :
    (∀ (ns bi st : ℚ) (rows : List (ℚ × ℚ × ℚ × ℚ × ℚ)),
      parseTrialLines (configLines ns bi st
          ++ rows.map (fun r => fiveFieldLine r.1 r.2.1 r.2.2.1 r.2.2.2.1 r.2.2.2.2))
        = .ok { samples := some (.num ns), burn_in := some (.num bi), steps := some (.num st)
                fidelities := rows.map (fun r => r.1)
                errors := rows.map (fun r => r.2.1)
                runtimes := rows.map (fun r => r.2.2.1) }) ∧
    parseTrialLines (configLines 1 1 1
        ++ [[Tok.num 5, .str "", Tok.num 6, .str "", .str ""]])
      = .error .valueError := by
  constructor
  · intro ns bi st rows
    have h := parseTrialLines_record
      (fun r : ℚ × ℚ × ℚ × ℚ × ℚ => fiveFieldLine r.1 r.2.1 r.2.2.1 r.2.2.2.1 r.2.2.2.2)
      (fun r => r.1) (fun r => r.2.1) (fun r => r.2.2.1)
      (fun r => fiveFieldLine_toks r.1 r.2.1 r.2.2.1 r.2.2.2.1 r.2.2.2.2) rows ns bi st
    exact h
  · rfl

/-- C7 counterexample: a record with a single data row is fully parsed — its
runtime, fidelity and relativeError columns are extracted with no row-count
validation — and the analysis then fails with a plain IndexError (not a
TruncatedTrialError issued before extraction) at the runtime-at-iteration-10
step. -/
theorem c7_counterexample :
    parseTrialLines (configLines 1 1 1 ++ [dataLine 1 1 1 1 1 1])
      = .ok { samples := some (.num 1), burn_in := some (.num 1), steps := some (.num 1)
              fidelities := [pyRound 1 3], errors := [pyRound 1 6], runtimes := [pyRound 1 3] } ∧
    analysisPipeline [configLines 1 1 1 ++ [dataLine 1 1 1 1 1 1]] = .error .indexError :=
  ⟨rfl, rfl⟩

/-- C7 amended: TrialAnalyzer performs no up-front row-count validation: it
extracts the columns of every record unconditionally, and when a parsed
trial has at most 10 data rows the subsequent aggregation of runtime at the
fixed target iteration index 10 fails with an IndexError. -/
theorem c7_no_row_count_validation (lines : List Line) (t : ParsedTrial)
    (hparse : parseTrialLines lines = .ok t) (hshort : t.runtimes.length ≤ 10) :
    analysisPipeline [lines] = .error .indexError := by
  rw [analysisPipeline]
  have hall : parseAllTrials [lines] = .ok [t] := by
    rw [parseAllTrials, hparse]
    rfl
  rw [hall]
  simp only [exceptBind_ok]
  rw [runtimesAt10]
  have h10 : pyGet t.runtimes ((10 : ℕ) : ℤ) = .error .indexError :=
    pyGet_ge_length t.runtimes 10 hshort
  have hcast : ((10 : ℕ) : ℤ) = (10 : ℤ) := by norm_num
  rw [hcast] at h10
  rw [h10]
  rfl

/-- C7 witness: the one-row record again, through the amended theorem. -/
theorem c7_witness :
    parseTrialLines (configLines 2 2 2 ++ [dataLine 1 1 1 1 1 1])
      = .ok { samples := some (.num 2), burn_in := some (.num 2), steps := some (.num 2)
              fidelities := [pyRound 1 3], errors := [pyRound 1 6]
              runtimes := [pyRound 1 3] } ∧
    ({ samples := some (.num 2), burn_in := some (.num 2), steps := some (.num 2)
       fidelities := [pyRound 1 3], errors := [pyRound 1 6]
       runtimes := [pyRound 1 3] } : ParsedTrial).runtimes.length ≤ 10 ∧
    analysisPipeline [configLines 2 2 2 ++ [dataLine 1 1 1 1 1 1]] = .error .indexError :=
  ⟨rfl, by simp,
   c7_no_row_count_validation (configLines 2 2 2 ++ [dataLine 1 1 1 1 1 1])
     { samples := some (.num 2), burn_in := some (.num 2), steps := some (.num 2)
       fidelities := [pyRound 1 3], errors := [pyRound 1 6]
       runtimes := [pyRound 1 3] } rfl (by simp)⟩

/-- C4: evaluation of the trial-numbering code at the failing inputs.  With
existing artifacts Trial1.txt, Trial2.txt, Trial3.txt the scan does compute
4 (last digit of the last listed file, plus one), but the computed number is
dead: the artifact is written under the literal id "Next".  With a
multi-digit trial the scan computes last-digit-plus-one (Trial12 → 3, not
13), so it is not "highest embedded trial number plus one".  With an empty
directory the scan raises a plain IndexError (`files[-1]`), there being no
NoPriorTrialError in the code. -/
theorem c4_dead_trial_number :
    nextTrialCalc ["Trial1.txt", "Trial2.txt", "Trial3.txt"] = .ok 4 ∧
    writtenTrialId .next ["Trial1.txt", "Trial2.txt", "Trial3.txt"] = .ok "Next" ∧
    "Next" ≠ "4" ∧
    nextTrialCalc ["Trial12.txt"] = .ok 3 ∧
    writtenTrialId .next [] = .error .indexError := by
  refine ⟨rfl, rfl, by decide, rfl, rfl⟩

/-- C8: the number of data rows written into the TrialRecord equals the
number of history entries produced by the ObservableEvaluator during the
trial, and row i is derived from the i-th recorded iteration (i+1)·p — the
rows appear in exactly the order the iterations were recorded.  The
MetricEvaluator (fidelity) and Timer (runtime) histories, whose code is not
under src/, are modelled from the spec with the same periodic/history
contract (§4.2, §4.3); all three callbacks share the period `log_every`, as
in `trainEnergy`. -/
theorem c8_row_alignment (measure : ℕ → List (String × StatSummary))
    (fid time : ℕ → ℚ) (nm : String) (p E : ℕ) (H : ℚ) (i : ℕ)
    (hp : 1 ≤ p) (hH : H ≠ 0) (hi : i < E / p) :
    ∃ roes rows,
      relativeErrorsCalc (meanSeries (runEvaluator measure p E true) nm) H = .ok roes ∧
      trialDataRows
        (valueSeries (runEvaluator (fun e => [("Fidelity", fid e)]) p E true) "Fidelity")
        roes
        (valueSeries (runEvaluator (fun e => [("time", time e)]) p E true) "time")
        (meanSeries (runEvaluator measure p E true) nm)
        (varianceSeries (runEvaluator measure p E true) nm)
        (stdErrorSeries (runEvaluator measure p E true) nm) = .ok rows ∧
      rows.length = (runEvaluator measure p E true).observable_statistics.length ∧
      ((runEvaluator measure p E true).observable_statistics.getD i (0, [])).1
        = (i + 1) * p ∧
      rows.getD i [] = dataLine (fid ((i + 1) * p))
        (|(statAt measure nm ((i + 1) * p)).mean - H| / |H|)
        (time ((i + 1) * p))
        ((statAt measure nm ((i + 1) * p)).mean)
        ((statAt measure nm ((i + 1) * p)).variance)
        ((statAt measure nm ((i + 1) * p)).std_error) := by
  have hstats := runEvaluator_stats measure p true hp E
  have hmean : meanSeries (runEvaluator measure p E true) nm
      = (List.range (E / p)).map (fun j => (statAt measure nm ((j + 1) * p)).mean) := by
    rw [meanSeries, hstats, List.map_map]
    rfl
  have hvar : varianceSeries (runEvaluator measure p E true) nm
      = (List.range (E / p)).map (fun j => (statAt measure nm ((j + 1) * p)).variance) := by
    rw [varianceSeries, hstats, List.map_map]
    rfl
  have hse : stdErrorSeries (runEvaluator measure p E true) nm
      = (List.range (E / p)).map (fun j => (statAt measure nm ((j + 1) * p)).std_error) := by
    rw [stdErrorSeries, hstats, List.map_map]
    rfl
  have hfid : valueSeries (runEvaluator (fun e => [("Fidelity", fid e)]) p E true) "Fidelity"
      = (List.range (E / p)).map (fun j => fid ((j + 1) * p)) := by
    rw [valueSeries, runEvaluator_stats _ p true hp E, List.map_map]
    simp [Function.comp_def, List.lookup]
  have htime : valueSeries (runEvaluator (fun e => [("time", time e)]) p E true) "time"
      = (List.range (E / p)).map (fun j => time ((j + 1) * p)) := by
    rw [valueSeries, runEvaluator_stats _ p true hp E, List.map_map]
    simp [Function.comp_def, List.lookup]
  have hroes : relativeErrorsCalc (meanSeries (runEvaluator measure p E true) nm) H
      = .ok ((List.range (E / p)).map
          (fun j => |(statAt measure nm ((j + 1) * p)).mean - H| / |H|)) := by
    rw [relativeErrorsCalc_ok _ H hH, hmean, List.map_map]
    rfl
  have htr : trialDataRows
      ((List.range (E / p)).map (fun j => fid ((j + 1) * p)))
      ((List.range (E / p)).map (fun j => |(statAt measure nm ((j + 1) * p)).mean - H| / |H|))
      ((List.range (E / p)).map (fun j => time ((j + 1) * p)))
      ((List.range (E / p)).map (fun j => (statAt measure nm ((j + 1) * p)).mean))
      ((List.range (E / p)).map (fun j => (statAt measure nm ((j + 1) * p)).variance))
      ((List.range (E / p)).map (fun j => (statAt measure nm ((j + 1) * p)).std_error))
      = .ok ((List.range (E / p)).map (fun j => dataLine (fid ((j + 1) * p))
          (|(statAt measure nm ((j + 1) * p)).mean - H| / |H|) (time ((j + 1) * p))
          ((statAt measure nm ((j + 1) * p)).mean)
          ((statAt measure nm ((j + 1) * p)).variance)
          ((statAt measure nm ((j + 1) * p)).std_error))) := by
    rw [trialDataRows_ok _ _ _ _ _ _ (by simp) (by simp) (by simp) (by simp) (by simp)]
    congr 1
    have hlen : ((List.range (E / p)).map (fun j => fid ((j + 1) * p))).length = E / p := by
      simp
    rw [hlen]
    apply List.map_congr_left
    intro a ha
    rw [List.mem_range] at ha
    rw [getD_map_range _ _ _ _ ha, getD_map_range _ _ _ _ ha, getD_map_range _ _ _ _ ha,
      getD_map_range _ _ _ _ ha, getD_map_range _ _ _ _ ha, getD_map_range _ _ _ _ ha]
  refine ⟨_, (List.range (E / p)).map (fun j => dataLine (fid ((j + 1) * p))
      (|(statAt measure nm ((j + 1) * p)).mean - H| / |H|) (time ((j + 1) * p))
      ((statAt measure nm ((j + 1) * p)).mean) ((statAt measure nm ((j + 1) * p)).variance)
      ((statAt measure nm ((j + 1) * p)).std_error)), hroes, ?_, ?_, ?_, ?_⟩
  · rw [hfid, htime, hmean, hvar, hse]
    exact htr
  · rw [hstats]
    simp
  · rw [hstats, getD_map_range _ _ _ _ hi]
  · rw [getD_map_range _ _ _ _ hi]

/-- C8 witness: one iteration at period 1 produces one history entry and one
row, aligned with iteration 1. -/
theorem c8_witness :
    1 ≤ 1 ∧ (2 : ℚ) ≠ 0 ∧ 0 < 1 / 1 ∧
    (∃ roes rows,
      relativeErrorsCalc
        (meanSeries (runEvaluator (fun e => [("En", (⟨(e : ℚ), 2, 3⟩ : StatSummary))]) 1 1 true)
          "En") 2 = .ok roes ∧
      trialDataRows
        (valueSeries (runEvaluator (fun e => [("Fidelity", (e : ℚ))]) 1 1 true) "Fidelity")
        roes
        (valueSeries (runEvaluator (fun e => [("time", (e : ℚ))]) 1 1 true) "time")
        (meanSeries (runEvaluator (fun e => [("En", (⟨(e : ℚ), 2, 3⟩ : StatSummary))]) 1 1 true)
          "En")
        (varianceSeries
          (runEvaluator (fun e => [("En", (⟨(e : ℚ), 2, 3⟩ : StatSummary))]) 1 1 true) "En")
        (stdErrorSeries
          (runEvaluator (fun e => [("En", (⟨(e : ℚ), 2, 3⟩ : StatSummary))]) 1 1 true) "En")
        = .ok rows ∧
      rows.length
        = ((runEvaluator (fun e => [("En", (⟨(e : ℚ), 2, 3⟩ : StatSummary))]) 1 1
            true).observable_statistics).length ∧
      (((runEvaluator (fun e => [("En", (⟨(e : ℚ), 2, 3⟩ : StatSummary))]) 1 1
          true).observable_statistics).getD 0 (0, [])).1 = (0 + 1) * 1 ∧
      rows.getD 0 [] = dataLine ((((0 + 1) * 1 : ℕ)) : ℚ)
        (|(statAt (fun e => [("En", (⟨(e : ℚ), 2, 3⟩ : StatSummary))]) "En" ((0 + 1) * 1)).mean
            - 2| / |(2 : ℚ)|)
        ((((0 + 1) * 1 : ℕ)) : ℚ)
        ((statAt (fun e => [("En", (⟨(e : ℚ), 2, 3⟩ : StatSummary))]) "En" ((0 + 1) * 1)).mean)
        ((statAt (fun e => [("En", (⟨(e : ℚ), 2, 3⟩ : StatSummary))]) "En"
          ((0 + 1) * 1)).variance)
        ((statAt (fun e => [("En", (⟨(e : ℚ), 2, 3⟩ : StatSummary))]) "En"
          ((0 + 1) * 1)).std_error)) :=
  ⟨le_refl 1, by norm_num, by decide,
   c8_row_alignment (fun e => [("En", (⟨(e : ℚ), 2, 3⟩ : StatSummary))])
     (fun e => (e : ℚ)) (fun e => (e : ℚ)) "En" 1 1 2 0 (le_refl 1) (by norm_num) (by decide)⟩

end QuCumber
